import Mathlib

/-!
Verification of the DynamoDB condition-expression compiler and paginated
fetch engine of this repository.

The development shallowly embeds the relevant TypeScript source:

* `src/repositories/dynamoDbExpressions.ts` — the `AttributeTracker`
  substitution table and the `Condition` expression AST with its
  `build` compilation (here: `AttributeTracker`, `Operand`, `Condition`,
  `Condition.build`).
* `src/repositories/dynamoDbQueryBuilder.ts` — the `QueryBuilder` staged
  request builder (here: `QueryBuilder`, `QueryBuilder.build` and the
  per-stage helpers, all named after the source methods).
* `src/repositories/exampleDynamo.repository.ts` — the paginated fetch
  engine `queryAll` / `scanAll` / `hasResultBeenTruncated`.

Modelling conventions:

* JavaScript strings are `String`; `number` literals reachable in the
  claims are natural counts, so limits and counters are `Nat` (DynamoDB
  `Limit` is a positive integer; Nat subtraction only occurs under a
  guard that makes it exact, noted where it happens).
* `undefined`-able parameters are `Option`; JS truthiness of a string is
  `strTruthy` (`undefined` and `""` are falsy); truthiness of a present
  object is `true`.
* JS `Record`s keyed by insertion-ordered string keys are association
  lists; assignment overwrites in place or appends (`recordSet`).
* Thrown `Error`s are `Except` errors. Each distinct `throw` site of the
  source throws a distinct message; we give the errors an inductive type
  (`ExpressionError`, `BuilderError`) whose `message` function produces
  the exact source message strings.
* The number-to-string conversion used for value placeholder suffixes
  (JS `":" + name + counter`) is `natStr`, the decimal numeral of a
  `Nat` (proved equal to the reversed `Nat.digits` rendering).
* The asynchronous store client is modelled as the list of page
  responses it will return, in order; a call past the end of the list
  returns an empty page with no continuation token.
-/

/-- Decimal digit characters of `n`, most significant first, by the
standard divide-by-ten algorithm; the first argument is recursion fuel
(any fuel above the digit count gives the same result). -/
def natStrCore : Nat → Nat → List Char
  | 0, _ => []
  | fuel + 1, n =>
    if n < 10 then [Nat.digitChar n]
    else natStrCore fuel (n / 10) ++ [Nat.digitChar (n % 10)]

/-- The decimal numeral of a natural number, as produced by the JS
number-to-string conversion of a nonnegative integer. -/
def natStr (n : Nat) : String := ⟨natStrCore (n + 1) n⟩

/-- Literal operand values (`string | number | Date | null`, plus the
`undefined` that the source's runtime checks guard against).  A `Date` is
carried as its ISO-8601 rendering, which is all `convertValue` uses. -/
inductive Lit where
  | str (s : String)
  | num (n : Int)
  | date (iso : String)
  | null
  | undef
deriving DecidableEq

/-- `AttributeTracker.convertValue`: a `Date` is converted to its
ISO-8601 string; every other literal passes through unchanged. -/
def convertValue : Lit → Lit
  | .date iso => .str iso
  | v => v

/-- The `Comparator` type of `dynamoDbExpressions.ts`. -/
inductive Comparator where
  | eq | lt | gt | le | ge | ne
deriving DecidableEq

/-- Rendering of a comparator into the expression string. -/
def Comparator.render : Comparator → String
  | .eq => "="
  | .lt => "<"
  | .gt => ">"
  | .le => "<="
  | .ge => ">="
  | .ne => "<>"

/-- The `AttributeType` union of `dynamoDbExpressions.ts`. -/
inductive AttributeType where
  | string | stringSet | number | numberSet | binary | binarySet
  | boolean | null | list | map
deriving DecidableEq

/-- `attributeTypeMap` of `dynamoDbExpressions.ts` (including the
source's `numberSet ↦ "NN"`). -/
def attributeTypeMap : AttributeType → String
  | .string => "S"
  | .stringSet => "SS"
  | .number => "N"
  | .numberSet => "NN"
  | .binary => "B"
  | .binarySet => "BS"
  | .boolean => "BOOL"
  | .null => "NULL"
  | .list => "L"
  | .map => "M"

/-- Association-list lookup, the read side of a JS `Record<string, _>`. -/
def recordGet {α : Type} (m : List (String × α)) (k : String) : Option α :=
  match m with
  | [] => none
  | (k', v) :: rest => if k' = k then some v else recordGet rest k

/-- JS `Record` assignment `m[k] = v`: overwrite in place when the key
exists (keeping its insertion position), otherwise append. -/
def recordSet {α : Type} (m : List (String × α)) (k : String) (v : α) : List (String × α) :=
  if m.any (fun p => p.1 = k) then m.map (fun p => if p.1 = k then (k, v) else p)
  else m ++ [(k, v)]

/-- The `AttributeTracker` class of `dynamoDbExpressions.ts`: a
per-request substitution table for attribute names and values. -/
structure AttributeTracker where
  valueCounter : Nat := 0
  attributeNames : List (String × String) := []
  attributeValues : List (String × Lit) := []
deriving DecidableEq

/-- `AttributeTracker.getName`: maps an attribute name to the
placeholder `"#" + (alias ?? attrName)` and records the binding. -/
def AttributeTracker.getName (t : AttributeTracker) (attrName : String)
    (al : Option String) : String × AttributeTracker :=
  let mapped := "#" ++ (al.getD attrName)
  (mapped, { t with attributeNames := recordSet t.attributeNames mapped attrName })

/-- `AttributeTracker.getValue`: allocates the fresh placeholder
`":" + (alias ?? "v_sub") + valueCounter`, records the converted value
and increments the counter. -/
def AttributeTracker.getValue (t : AttributeTracker) (value : Lit)
    (al : Option String) : String × AttributeTracker :=
  let attrName := al.getD "v_sub"
  let mapped := ":" ++ attrName ++ natStr t.valueCounter
  (mapped,
    { t with
      attributeValues := recordSet t.attributeValues mapped (convertValue value)
      valueCounter := t.valueCounter + 1 })

/-- JS truthiness of an optional string: `undefined` and `""` are falsy. -/
def strTruthy : Option String → Bool
  | some s => s ≠ ""
  | none => false

/-- Structural validation errors thrown while compiling an expression:
`And`/`Or` with fewer than 2 sub-conditions.  These are the only `throw`
sites in `dynamoDbExpressions.ts`. -/
inductive ExpressionError where
  | andTooFew (n : Nat)
  | orTooFew (n : Nat)
deriving DecidableEq

/-- The exact message of the `Error` thrown at each site. -/
def ExpressionError.message : ExpressionError → String
  | .andTooFew n => "And condition must have at least 2 operands but got: " ++ natStr n
  | .orTooFew n => "Or condition must have at least 2 operands but got: " ++ natStr n

mutual
/-- The `Operand` union of `dynamoDbExpressions.ts`: a literal, an
`AttributeName` (constructed with `A`), a nested `Condition`, or a
`Size` node. -/
inductive Operand where
  | lit (v : Lit)
  | attr (name : String)
  | sizeFn (path : String)
  | cond (c : Condition)

/-- The closed set of `Condition` AST variants of
`dynamoDbExpressions.ts`.  `Eq` and `KeyConditionComparison` construct a
`comparison` with the corresponding comparator, exactly as the
subclasses do. -/
inductive Condition where
  | comparison (o1 : Operand) (cmp : Comparator) (o2 : Operand)
  | between (o start stop : Operand)
  | beginsWith (o : Operand) (pre : String)
  | inList (o : Operand) (list : List Operand)
  | and (cs : List Condition)
  | or (cs : List Condition)
  | notC (c : Condition)
  | existsF (path : String)
  | notExistsF (path : String)
  | typeF (path : String) (ty : AttributeType)
  | containsF (path : String) (o : Operand)
end

/-- `Eq` of the source: a `Comparison` with the `"="` comparator. -/
def Eq' (o1 o2 : Operand) : Condition := .comparison o1 .eq o2

/-- `escapePath`: split a dotted path, resolve every segment as an
attribute name (the source calls `tracker.get(A(part))`, which
dispatches to `getName` with no alias), and re-join with `"."`. -/
def escapePath (t : AttributeTracker) (path : String) : String × AttributeTracker :=
  let parts := path.splitOn "."
  let step := parts.foldl
    (fun (acc : List String × AttributeTracker) part =>
      let (s, t) := acc.2.getName part none
      (acc.1 ++ [s], t)) ([], t)
  (String.intercalate "." step.1, step.2)

/-- `Size.build`: `size({path})` with the path escaped. -/
def sizeBuild (path : String) (t : AttributeTracker) : String × AttributeTracker :=
  let (p, t) := escapePath t path
  ("size(" ++ p ++ ")", t)

mutual
/-- `AttributeTracker.get`: dispatch on the operand kind — nested
conditions and `Size` compile themselves, attribute names go to
`getName`, all other operands are literal values going to `getValue`. -/
def AttributeTracker.get (t : AttributeTracker) (value : Operand)
    (al : Option String) : Except ExpressionError (String × AttributeTracker) :=
  match value with
  | .cond c => c.build t
  | .sizeFn p => .ok (sizeBuild p t)
  | .attr n => .ok (t.getName n al)
  | .lit v => .ok (t.getValue v al)
termination_by structural value

/-- The `build(tracker)` method of each `Condition` variant, compiling
to the exact textual form of the source, resolving operands against the
tracker in the source's evaluation order. -/
def Condition.build : Condition → AttributeTracker → Except ExpressionError (String × AttributeTracker)
  | .comparison o1 cmp o2, t => do
    let (attributeName, t) ← t.get o1 none
    let (attributeValue, t) ← t.get o2 none
    .ok (attributeName ++ " " ++ cmp.render ++ " " ++ attributeValue, t)
  | .between o s e, t => do
    let (attributeName, t) ← t.get o none
    let (start, t) ← t.get s none
    let (stop, t) ← t.get e none
    .ok (attributeName ++ " BETWEEN " ++ start ++ " AND " ++ stop, t)
  | .beginsWith o pre, t => do
    let (attributeName, t) ← t.get o none
    -- `tracker.get(this.beginsWith)` on a string literal dispatches to `getValue`
    let (attributeValue, t) := t.getValue (.str pre) none
    .ok ("begins_with(" ++ attributeName ++ ", " ++ attributeValue ++ ")", t)
  | .inList o list, t => do
    let (attributeName, t) ← t.get o none
    let (attributeValues, t) ← Operand.getList list t
    .ok (attributeName ++ " IN (" ++ String.intercalate ", " attributeValues ++ ")", t)
  | .and cs, t =>
    if cs.length < 2 then .error (.andTooFew cs.length)
    else
      match Condition.buildList cs t with
      | .ok (parts, t) => .ok ("(" ++ String.intercalate ") AND (" parts ++ ")", t)
      | .error e => .error e
  | .or cs, t =>
    if cs.length < 2 then .error (.orTooFew cs.length)
    else
      match Condition.buildList cs t with
      | .ok (parts, t) => .ok ("(" ++ String.intercalate ") OR (" parts ++ ")", t)
      | .error e => .error e
  | .notC c, t => do
    let (s, t) ← c.build t
    .ok ("NOT (" ++ s ++ ")", t)
  | .existsF path, t =>
    let (p, t) := escapePath t path
    .ok ("attribute_exists(" ++ p ++ ")", t)
  | .notExistsF path, t =>
    let (p, t) := escapePath t path
    .ok ("attribute_not_exists(" ++ p ++ ")", t)
  | .typeF path ty, t =>
    -- `tracker.get(attributeTypeMap[this.type])` on a string literal dispatches to `getValue`
    let (attributeValue, t) := t.getValue (.str (attributeTypeMap ty)) none
    let (p, t) := escapePath t path
    .ok ("attribute_type(" ++ p ++ ", " ++ attributeValue ++ ")", t)
  | .containsF path o, t => do
    let (attributeValue, t) ← t.get o none
    let (p, t) := escapePath t path
    .ok ("contains(" ++ p ++ ", " ++ attributeValue ++ ")", t)
termination_by structural c _ => c

/-- Left-to-right compilation of a list of sub-conditions against one
tracker (the source's `conditions.map((c) => c.build(tracker))`). -/
def Condition.buildList : List Condition → AttributeTracker → Except ExpressionError (List String × AttributeTracker)
  | [], t => .ok ([], t)
  | c :: cs, t => do
    let (s, t) ← c.build t
    let (ss, t) ← Condition.buildList cs t
    .ok (s :: ss, t)
termination_by structural cs _ => cs

/-- Left-to-right resolution of a list of operands against one tracker
(the source's `list.map((o) => tracker.get(o))`). -/
def Operand.getList : List Operand → AttributeTracker → Except ExpressionError (List String × AttributeTracker)
  | [], t => .ok ([], t)
  | o :: os, t => do
    let (s, t) ← t.get o none
    let (ss, t) ← Operand.getList os t
    .ok (s :: ss, t)
termination_by structural os _ => os
end

/-- An opaque continuation token (`LastEvaluatedKey`), never interpreted
by the layers above the store client. -/
abbrev ContinuationKey := Nat

/-- The `Operation` union of `dynamoDbQueryBuilder.ts`. -/
inductive Operation where
  | query | scan
deriving DecidableEq

/-- Sort direction of `PaginationOptions`. -/
inductive SortDir where
  | asc | desc
deriving DecidableEq

/-- `Filters = Record<string, any[]>`: insertion-ordered mapping from
field name to the list of values it may equal. -/
abbrev Filters := List (String × List Lit)

/-- `KeyParams` of `dynamoDbQueryBuilder.ts`.  `partitionKeyValue` is
typed `string` in the source, but `build()` explicitly checks it against
`undefined` at runtime, so it is optional here.  `sortKeyCondition` is a
`SortKeyCondition`, i.e. a condition. -/
structure KeyParams where
  partitionKeyName : String
  partitionKeyValue : Option String
  sortKeyName : Option String := none
  sortKeyValue : Option String := none
  sortKeyCondition : Option Condition := none

/-- `IndexParams` of `dynamoDbQueryBuilder.ts`. -/
structure IndexParams where
  indexName : Option String := none

/-- `PaginationOptions` of `dynamoDbQueryBuilder.ts`. -/
structure PaginationOptions where
  pageSize : Option Nat := none
  lastEvaluatedKey : Option ContinuationKey := none
  sortDir : Option SortDir := none

/-- The store request shape (`QueryCommandInput` / `ScanCommandInput`):
each optional wire field is `none` when the key is absent or
`undefined`. -/
structure QueryCommandInput where
  tableName : String
  indexName : Option String := none
  keyConditionExpression : Option String := none
  filterExpression : Option String := none
  projectionExpression : Option String := none
  expressionAttributeNames : Option (List (String × String)) := none
  expressionAttributeValues : Option (List (String × Lit)) := none
  limit : Option Nat := none
  exclusiveStartKey : Option ContinuationKey := none
  scanIndexForward : Option Bool := none
deriving DecidableEq

/-- `Partial<QueryCommandInput>` for `withRaw`: a field is `some` when
the override object carries that key. -/
structure RawOptions where
  tableName : Option String := none
  indexName : Option String := none
  keyConditionExpression : Option String := none
  filterExpression : Option String := none
  projectionExpression : Option String := none
  expressionAttributeNames : Option (List (String × String)) := none
  expressionAttributeValues : Option (List (String × Lit)) := none
  limit : Option Nat := none
  exclusiveStartKey : Option ContinuationKey := none
  scanIndexForward : Option Bool := none
deriving DecidableEq

/-- `Object.assign(query, raw)`: every key carried by `raw` overwrites
the corresponding field of `query`. -/
def assignRaw (query : QueryCommandInput) (raw : RawOptions) : QueryCommandInput :=
  { tableName := raw.tableName.getD query.tableName
    indexName := raw.indexName.or query.indexName
    keyConditionExpression := raw.keyConditionExpression.or query.keyConditionExpression
    filterExpression := raw.filterExpression.or query.filterExpression
    projectionExpression := raw.projectionExpression.or query.projectionExpression
    expressionAttributeNames := raw.expressionAttributeNames.or query.expressionAttributeNames
    expressionAttributeValues := raw.expressionAttributeValues.or query.expressionAttributeValues
    limit := raw.limit.or query.limit
    exclusiveStartKey := raw.exclusiveStartKey.or query.exclusiveStartKey
    scanIndexForward := raw.scanIndexForward.or query.scanIndexForward }

/-- The validation errors thrown by `QueryBuilder`, plus lifted
expression-compilation errors. -/
inductive BuilderError where
  | expr (e : ExpressionError)
  | pkRequired
  | indexTwice
  | keysTwice
  | filterTwice
deriving DecidableEq

/-- The exact message of the `Error` thrown at each `QueryBuilder`
throw site. -/
def BuilderError.message : BuilderError → String
  | .expr e => e.message
  | .pkRequired =>
    "A key configuration using `withKeys` containing a partition key name and value is required for a query operation"
  | .indexTwice => "Only one index can be specified"
  | .keysTwice => "Keys can only be specified once per query"
  | .filterTwice => "Only 1 filter or filter expression can be applied per query"

/-- The mutable `QueryBuilder` state: the staged configuration plus the
request object `query` (mutated in place by `build()`) and the current
tracker. -/
structure QueryBuilder where
  tableName : String
  query : QueryCommandInput
  index : Option IndexParams := none
  keys : Option KeyParams := none
  filter : Option Filters := none
  filterExpression : Option Condition := none
  fields : Option (List String) := none
  pagination : Option PaginationOptions := none
  rawQueryOptions : Option RawOptions := none
  tracker : AttributeTracker := {}

/-- The `QueryBuilder` constructor: `this.query = { TableName: tableName }`. -/
def QueryBuilder.new (tableName : String) : QueryBuilder :=
  { tableName := tableName, query := { tableName := tableName } }

/-- `withIndex`: at most one index. -/
def QueryBuilder.withIndex (b : QueryBuilder) (indexParams : IndexParams) :
    Except BuilderError QueryBuilder :=
  if b.index.isSome then .error .indexTwice
  else .ok { b with index := some indexParams }

/-- `withKeys`: at most one key configuration. -/
def QueryBuilder.withKeys (b : QueryBuilder) (keyParams : KeyParams) :
    Except BuilderError QueryBuilder :=
  if b.keys.isSome then .error .keysTwice
  else .ok { b with keys := some keyParams }

/-- `withFields`: stores the projection field list (last call wins). -/
def QueryBuilder.withFields (b : QueryBuilder) (fields : List String) : QueryBuilder :=
  { b with fields := some fields }

/-- `withFilter`: mutually exclusive with `withFilterExpression`; an
`undefined` argument leaves the builder unchanged. -/
def QueryBuilder.withFilter (b : QueryBuilder) (filterParams : Option Filters) :
    Except BuilderError QueryBuilder :=
  if b.filter.isSome || b.filterExpression.isSome then .error .filterTwice
  else
    match filterParams with
    | none => .ok b
    | some f => .ok { b with filter := some f }

/-- `withFilterExpression`: mutually exclusive with `withFilter`. -/
def QueryBuilder.withFilterExpression (b : QueryBuilder) (fe : Option Condition) :
    Except BuilderError QueryBuilder :=
  if b.filter.isSome || b.filterExpression.isSome then .error .filterTwice
  else
    match fe with
    | none => .ok b
    | some f => .ok { b with filterExpression := some f }

/-- `withPagination`. -/
def QueryBuilder.withPagination (b : QueryBuilder) (p : Option PaginationOptions) : QueryBuilder :=
  { b with pagination := p }

/-- `withRaw`. -/
def QueryBuilder.withRaw (b : QueryBuilder) (raw : RawOptions) : QueryBuilder :=
  { b with rawQueryOptions := some raw }

/-- The per-field condition of `generateFilterExpression`: one value
gives a single equality comparison, several values give an `Or` of
equality comparisons on the field. -/
def perFieldCondition : String × List Lit → Condition
  | (key, [v]) => .comparison (.attr key) .eq (.lit v)
  | (key, values) => .or (values.map (fun v => Condition.comparison (.attr key) .eq (.lit v)))

/-- `generateFilterExpression`: map every field of the filter object to
its per-field condition; a single field is returned unwrapped, two or
more fields are joined with `And`. -/
def generateFilterExpression (filters : Filters) : Condition :=
  let comparisons := filters.map perFieldCondition
  match comparisons with
  | [c] => c
  | cs => .and cs

/-- `generateFilterInput`: compile the simple filter map to an
expression string, or `undefined` when the map has no keys. -/
def generateFilterInput (filterInputParams : Filters) (t : AttributeTracker) :
    Except ExpressionError (Option String × AttributeTracker) :=
  if filterInputParams.length > 0 then do
    let (s, t) ← (generateFilterExpression filterInputParams).build t
    .ok (some s, t)
  else .ok (none, t)

/-- Insertion into a JS `Set<string>`: insertion-ordered and
deduplicating. -/
def setAdd (s : List String) (x : String) : List String :=
  if s.contains x then s else s ++ [x]

/-- The field loop of `generateProjectionExpression`: resolve every
requested field through the tracker and add the placeholder to the
set. -/
def projectionFieldsLoop : List String → List String → AttributeTracker → List String × AttributeTracker
  | [], acc, t => (acc, t)
  | field :: rest, acc, t =>
    let (fieldName, t) := t.getName field none
    projectionFieldsLoop rest (setAdd acc fieldName) t

/-- `generateProjectionExpression`, up to the final comma join: the
requested fields' placeholders, then — when a key configuration is
staged — the partition key placeholder and (if a sort key name is
present) the sort key placeholder, all deduplicated by the set. -/
def generateProjectionFields (keys : Option KeyParams) (fields : List String)
    (t : AttributeTracker) : List String × AttributeTracker :=
  let r := projectionFieldsLoop fields [] t
  match keys with
  | none => r
  | some ks =>
    let rp := r.2.getName ks.partitionKeyName none
    let projectionFields := setAdd r.1 rp.1
    match ks.sortKeyName with
    | some sk =>
      if sk ≠ "" then
        let rs := rp.2.getName sk none
        (setAdd projectionFields rs.1, rs.2)
      else (projectionFields, rp.2)
    | none => (projectionFields, rp.2)

/-- `generateProjectionExpression`: the deduplicated placeholders joined
with `","`. -/
def generateProjectionExpression (keys : Option KeyParams) (fields : List String)
    (t : AttributeTracker) : String × AttributeTracker :=
  let (projectionFields, t) := generateProjectionFields keys fields t
  (String.intercalate "," projectionFields, t)

/-- `buildKeys`: compile the `KeyConditionExpression` from the staged
key configuration — partition equality, optionally `And`-ed with a sort
key equality or a caller-supplied sort key condition. -/
def buildKeys (query : QueryCommandInput) (keys : Option KeyParams)
    (t : AttributeTracker) : Except ExpressionError (QueryCommandInput × AttributeTracker) :=
  match keys with
  | none => .ok (query, t)
  | some ks =>
    let partitionKeyCondition :=
      Eq' (.attr ks.partitionKeyName) (.lit (ks.partitionKeyValue.elim Lit.undef Lit.str))
    if strTruthy ks.sortKeyName && ks.sortKeyValue.isSome then do
      let sortKeyCondition :=
        Eq' (.attr (ks.sortKeyName.getD "")) (.lit (ks.sortKeyValue.elim Lit.undef Lit.str))
      let (s, t) ← (Condition.and [partitionKeyCondition, sortKeyCondition]).build t
      .ok ({ query with keyConditionExpression := some s }, t)
    else
      match ks.sortKeyCondition with
      | some c => do
        let (s, t) ← (Condition.and [partitionKeyCondition, c]).build t
        .ok ({ query with keyConditionExpression := some s }, t)
      | none => do
        let (s, t) ← partitionKeyCondition.build t
        .ok ({ query with keyConditionExpression := some s }, t)

/-- `buildIndex`: set `IndexName` when an index name is present. -/
def buildIndex (query : QueryCommandInput) (index : Option IndexParams) : QueryCommandInput :=
  match index with
  | some i => if strTruthy i.indexName then { query with indexName := i.indexName } else query
  | none => query

/-- `buildPagination`: `Limit` is assigned unconditionally (possibly to
`undefined`), `ExclusiveStartKey` only when a start key is present, and
`ScanIndexForward` only reversed for `"desc"`. -/
def buildPagination (query : QueryCommandInput) (pagination : Option PaginationOptions) :
    QueryCommandInput :=
  match pagination with
  | none => query
  | some p =>
    let query := { query with limit := p.pageSize }
    let query :=
      if p.lastEvaluatedKey.isSome then { query with exclusiveStartKey := p.lastEvaluatedKey }
      else query
    if p.sortDir = some SortDir.desc then { query with scanIndexForward := some false } else query

/-- `buildFilterExpression`: compile a caller-supplied condition tree
into `FilterExpression`. -/
def buildFilterExpression (query : QueryCommandInput) (filterExpression : Option Condition)
    (t : AttributeTracker) : Except ExpressionError (QueryCommandInput × AttributeTracker) :=
  match filterExpression with
  | none => .ok (query, t)
  | some fe => do
    let (s, t) ← fe.build t
    .ok ({ query with filterExpression := some s }, t)

/-- `buildFilter`: compile the simple filter map into
`FilterExpression` (assigned even when the compiled result is
`undefined`). -/
def buildFilter (query : QueryCommandInput) (filter : Option Filters)
    (t : AttributeTracker) : Except ExpressionError (QueryCommandInput × AttributeTracker) :=
  match filter with
  | none => .ok (query, t)
  | some f => do
    let (s, t) ← generateFilterInput f t
    .ok ({ query with filterExpression := s }, t)

/-- `buildFields`: compile the `ProjectionExpression` from the staged
field list. -/
def buildFields (query : QueryCommandInput) (keys : Option KeyParams)
    (fields : Option (List String)) (t : AttributeTracker) : QueryCommandInput × AttributeTracker :=
  match fields with
  | none => (query, t)
  | some fs =>
    let (s, t) := generateProjectionExpression keys fs t
    ({ query with projectionExpression := some s }, t)

/-- `buildExpressionAttributeNamesAndValues`: attach the tracker's
accumulated maps, each only when non-empty. -/
def buildExpressionAttributeNamesAndValues (query : QueryCommandInput)
    (names : List (String × String)) (values : List (String × Lit)) : QueryCommandInput :=
  let query :=
    if names.length > 0 then { query with expressionAttributeNames := some names } else query
  if values.length > 0 then { query with expressionAttributeValues := some values } else query

/-- The partition-key guard of `build()`:
`!this.keys?.partitionKeyName || this.keys.partitionKeyValue === undefined`
(note the JS truthiness: an empty partition key name also fails). -/
def pkPresent (keys : Option KeyParams) : Bool :=
  match keys with
  | some ks => ks.partitionKeyName ≠ "" && ks.partitionKeyValue.isSome
  | none => false

/-- `QueryBuilder.build(operation)`: recreate the tracker, validate the
partition key for `"query"`, apply raw overrides onto the persistent
`this.query` object, then key condition (query only), index,
filter/filter-expression, projection, pagination, and finally the
tracker's name/value maps.  The returned builder reflects the source's
in-place mutation: it keeps the produced request object as `query` and
the tracker used for this build. -/
def QueryBuilder.build (b : QueryBuilder) (operation : Operation) :
    Except BuilderError (QueryCommandInput × QueryBuilder) := do
  let tracker : AttributeTracker := {}
  if operation = Operation.query && !(pkPresent b.keys) then
    .error .pkRequired
  else do
    let query :=
      match b.rawQueryOptions with
      | some raw => assignRaw b.query raw
      | none => b.query
    let (query, tracker) ←
      if operation = Operation.query then
        (buildKeys query b.keys tracker).mapError BuilderError.expr
      else pure (query, tracker)
    let query := buildIndex query b.index
    let (query, tracker) ← (buildFilter query b.filter tracker).mapError BuilderError.expr
    let (query, tracker) ←
      (buildFilterExpression query b.filterExpression tracker).mapError BuilderError.expr
    let (query, tracker) := buildFields query b.keys b.fields tracker
    let query := buildPagination query b.pagination
    let query :=
      buildExpressionAttributeNamesAndValues query tracker.attributeNames tracker.attributeValues
    .ok (query, { b with query := query, tracker := tracker })

/-- An item record returned by the store (opaque to the engine). -/
abbrev Item := Nat

/-- One store response: a page of items plus an optional continuation
token (`LastEvaluatedKey`). -/
structure PageResponse where
  items : List Item := []
  lastEvaluatedKey : Option ContinuationKey := none
deriving DecidableEq

/-- The request-varying fields of one store call issued by the fetch
engine: the command kind (`QueryCommand` or `ScanCommand`), the `Limit`
and the `ExclusiveStartKey`; every other request field is carried over
unchanged by the source's object spread. -/
structure CallRecord where
  kind : Operation
  limit : Option Nat
  exclusiveStartKey : Option ContinuationKey
deriving DecidableEq

/-- The outcome of an aggregated fetch: the merged items, the final
response's continuation token, and the instrumented list of store calls
issued (first call included). -/
structure FetchResult where
  items : List Item
  lastEvaluatedKey : Option ContinuationKey
  calls : List CallRecord
deriving DecidableEq

/-- `hasResultBeenTruncated` of `exampleDynamo.repository.ts`, verbatim:
with a positive input limit, truncated means a continuation token is
present and the accumulated output is still shorter than the limit;
otherwise (no limit, or a JS-falsy limit of `0`) truncated means a
continuation token is present. -/
def hasResultBeenTruncated (inputLimit : Option Nat) (aggregatedOutputLength : Option Nat)
    (lastEvaluatedKey : Option ContinuationKey) : Bool :=
  let outputLength := aggregatedOutputLength.getD 0
  match inputLimit with
  | some l => if 0 < l then lastEvaluatedKey.isSome && decide (outputLength < l) else lastEvaluatedKey.isSome
  | none => lastEvaluatedKey.isSome

/-- The follow-up `Limit` of the aggregation loop:
`queryInput.Limit ? queryInput.Limit - items.length : undefined`.  (The
loop guard guarantees `itemsLen < l` whenever this is evaluated, so the
Nat subtraction is the exact JS subtraction there.) -/
def nextLimit (origLimit : Option Nat) (itemsLen : Nat) : Option Nat :=
  match origLimit with
  | some l => if l ≠ 0 then some (l - itemsLen) else none
  | none => none

/-- The shared `while` loop of `queryAll` and `scanAll` (their loop
bodies are identical in the source; in both, every follow-up call is a
`QueryCommand`).  Arguments are the original input `Limit`, the items
accumulated so far, the latest response's `LastEvaluatedKey`, and the
store's remaining responses.  When the store list is exhausted, a call
returns an empty page without a token, after which the guard is
necessarily false; that final iteration is the base case. -/
def fetchLoop (origLimit : Option Nat) : List Item → Option ContinuationKey →
    List PageResponse → List Item × Option ContinuationKey × List CallRecord
  | items, lek, rest =>
    if hasResultBeenTruncated origLimit (some items.length) lek then
      let call : CallRecord := ⟨.query, nextLimit origLimit items.length, lek⟩
      match rest with
      | [] => (items, none, [call])
      | r :: rs =>
        let (items', lek', calls) := fetchLoop origLimit (items ++ r.items) r.lastEvaluatedKey rs
        (items', lek', call :: calls)
    else (items, lek, [])

/-- The first store call of an aggregated fetch consumes the head of the
store's response list (an empty page without token when the store has
nothing). -/
def sendFirst : List PageResponse → PageResponse × List PageResponse
  | [] => ({}, [])
  | r :: rs => (r, rs)

/-- `queryAll`: one initial `QueryCommand` with the caller's input, then
the aggregation loop. -/
def queryAll (queryInput : QueryCommandInput) (store : List PageResponse) : FetchResult :=
  let (result, rest) := sendFirst store
  let (items, lek, calls) := fetchLoop queryInput.limit result.items result.lastEvaluatedKey rest
  ⟨items, lek, ⟨.query, queryInput.limit, queryInput.exclusiveStartKey⟩ :: calls⟩

/-- `scanAll`: one initial `ScanCommand` with the caller's input, then
the same aggregation loop — whose follow-up calls are `QueryCommand`s,
exactly as in the source. -/
def scanAll (scanInput : QueryCommandInput) (store : List PageResponse) : FetchResult :=
  let (result, rest) := sendFirst store
  let (items, lek, calls) := fetchLoop scanInput.limit result.items result.lastEvaluatedKey rest
  ⟨items, lek, ⟨.scan, scanInput.limit, scanInput.exclusiveStartKey⟩ :: calls⟩

/-- Modelled from the spec (claim C1): with a set limit `L > 0`,
truncated iff a continuation token is present and the accumulated count
is strictly below `L`; with no limit set (or a limit of 0), truncated
iff a continuation token is present. -/
def truncatedSpec (limit : Option Nat) (count : Nat) (token : Option ContinuationKey) : Bool :=
  match limit with
  | some l => if 0 < l then token.isSome && decide (count < l) else token.isSome
  | none => token.isSome

/-- Modelled from the spec (claim C2): the follow-up call limit is the
original limit minus the items accumulated so far, or no limit when none
was requested. -/
def specFollowUpLimit (origLimit : Option Nat) (itemsSoFar : Nat) : Option Nat :=
  origLimit.map (fun l => l - itemsSoFar)

/-- Modelled from the spec (claim C2): while the accumulated result is
judged truncated, issue a follow-up call with the spec's follow-up limit
and the previous response's continuation token as exclusive start key,
appending each page's items. -/
def specLoop (origLimit : Option Nat) : List Item → Option ContinuationKey →
    List PageResponse → List Item × Option ContinuationKey × List CallRecord
  | items, lek, rest =>
    if truncatedSpec origLimit items.length lek then
      let call : CallRecord := ⟨.query, specFollowUpLimit origLimit items.length, lek⟩
      match rest with
      | [] => (items, none, [call])
      | r :: rs =>
        let (items', lek', calls) := specLoop origLimit (items ++ r.items) r.lastEvaluatedKey rs
        (items', lek', call :: calls)
    else (items, lek, [])

/-- Modelled from the spec (claim C2): one initial call with the
caller's limit and start key, then the spec's follow-up loop. -/
def specQueryAll (queryInput : QueryCommandInput) (store : List PageResponse) : FetchResult :=
  let (result, rest) := sendFirst store
  let (items, lek, calls) := specLoop queryInput.limit result.items result.lastEvaluatedKey rest
  ⟨items, lek, ⟨.query, queryInput.limit, queryInput.exclusiveStartKey⟩ :: calls⟩

/-- The engine's truncation test agrees pointwise with the spec's
truncation rule. -/
lemma hasResultBeenTruncated_eq_spec (limit : Option Nat) (len : Option Nat)
    (lek : Option ContinuationKey) :
    hasResultBeenTruncated limit len lek = truncatedSpec limit (len.getD 0) lek := by
  cases limit <;> simp [hasResultBeenTruncated, truncatedSpec]

/-- With no limit, or a positive limit, the loop's follow-up limit
agrees with the spec's follow-up limit. -/
lemma nextLimit_eq_spec (origLimit : Option Nat)
    (hL : origLimit = none ∨ 0 < origLimit.getD 0) (itemsLen : Nat) :
    nextLimit origLimit itemsLen = specFollowUpLimit origLimit itemsLen := by
  rcases origLimit with _ | l
  · rfl
  · rcases hL with h | h
    · cases h
    · simp only [Option.getD] at h
      simp [nextLimit, specFollowUpLimit, Nat.pos_iff_ne_zero.mp h]

/-- One-step unfolding of `fetchLoop` on a non-empty store. -/
lemma fetchLoop_cons (origLimit : Option Nat) (items : List Item)
    (lek : Option ContinuationKey) (r : PageResponse) (rs : List PageResponse) :
    fetchLoop origLimit items lek (r :: rs) =
      if hasResultBeenTruncated origLimit (some items.length) lek then
        ((fetchLoop origLimit (items ++ r.items) r.lastEvaluatedKey rs).1,
          (fetchLoop origLimit (items ++ r.items) r.lastEvaluatedKey rs).2.1,
          (⟨.query, nextLimit origLimit items.length, lek⟩ : CallRecord) ::
            (fetchLoop origLimit (items ++ r.items) r.lastEvaluatedKey rs).2.2)
      else (items, lek, []) := rfl

/-- One-step unfolding of `specLoop` on a non-empty store. -/
lemma specLoop_cons (origLimit : Option Nat) (items : List Item)
    (lek : Option ContinuationKey) (r : PageResponse) (rs : List PageResponse) :
    specLoop origLimit items lek (r :: rs) =
      if truncatedSpec origLimit items.length lek then
        ((specLoop origLimit (items ++ r.items) r.lastEvaluatedKey rs).1,
          (specLoop origLimit (items ++ r.items) r.lastEvaluatedKey rs).2.1,
          (⟨.query, specFollowUpLimit origLimit items.length, lek⟩ : CallRecord) ::
            (specLoop origLimit (items ++ r.items) r.lastEvaluatedKey rs).2.2)
      else (items, lek, []) := rfl

/-- The source's aggregation loop coincides with the spec's loop for
every store and accumulator when the original limit is absent or
positive. -/
lemma fetchLoop_eq_specLoop (origLimit : Option Nat)
    (hL : origLimit = none ∨ 0 < origLimit.getD 0) :
    ∀ (rest : List PageResponse) (items : List Item) (lek : Option ContinuationKey),
      fetchLoop origLimit items lek rest = specLoop origLimit items lek rest := by
  intro rest
  induction rest with
  | nil =>
    intro items lek
    rw [fetchLoop, specLoop, hasResultBeenTruncated_eq_spec,
      nextLimit_eq_spec origLimit hL]
    rfl
  | cons r rs ih =>
    intro items lek
    rw [fetchLoop_cons, specLoop_cons, hasResultBeenTruncated_eq_spec,
      nextLimit_eq_spec origLimit hL, ih]
    rfl

/-- Claim C1: the fetch engine's truncation decision is exactly — with a
caller-supplied limit `L > 0`, truncated iff a continuation token is
present and the accumulated count is strictly below `L`; with no limit
set (or limit 0), truncated iff a continuation token is present; for
every combination of limit, accumulated count and token presence. -/
theorem claim_c1 (inputLimit : Option Nat) (aggregatedOutputLength : Option Nat)
    (lastEvaluatedKey : Option ContinuationKey) :
    hasResultBeenTruncated inputLimit aggregatedOutputLength lastEvaluatedKey =
      truncatedSpec inputLimit (aggregatedOutputLength.getD 0) lastEvaluatedKey :=
  hasResultBeenTruncated_eq_spec inputLimit aggregatedOutputLength lastEvaluatedKey

/-- The pagination scenario of the spec: store pages of sizes
`[3, 3, 3]` with continuation tokens after pages 1 and 2 only. -/
def c2Pages : List PageResponse :=
  [⟨[1, 2, 3], some 101⟩, ⟨[4, 5, 6], some 102⟩, ⟨[7, 8, 9], none⟩]

/-- A `queryAll` input with table `"t"` and the given limit. -/
def c2Input (limit : Option Nat) : QueryCommandInput :=
  { tableName := "t", limit := limit }

/-- Claim C2: for every store-response sequence (and any absent or
positive limit), `queryAll` issues one initial call and then, while
truncated, follow-up calls with limit `original - itemsSoFar` (none when
no limit was requested) and the previous token as start key, appending
each page's items — it equals the spec-modelled `specQueryAll`; and on
pages `[3,3,3]` with tokens after pages 1 and 2: limit 3 gives 1 call
and 3 items, limit 6 gives 2 calls (second limit 3) and 6 items, limit
10 gives 3 calls and 9 items, no limit gives 3 calls and 9 items. -/
theorem claim_c2 :
    (∀ (queryInput : QueryCommandInput) (store : List PageResponse),
      queryInput.limit = none ∨ 0 < queryInput.limit.getD 0 →
      queryAll queryInput store = specQueryAll queryInput store) ∧
    (queryAll (c2Input (some 3)) c2Pages).calls = [⟨.query, some 3, none⟩] ∧
    (queryAll (c2Input (some 3)) c2Pages).items = [1, 2, 3] ∧
    (queryAll (c2Input (some 6)) c2Pages).calls =
      [⟨.query, some 6, none⟩, ⟨.query, some 3, some 101⟩] ∧
    (queryAll (c2Input (some 6)) c2Pages).items = [1, 2, 3, 4, 5, 6] ∧
    (queryAll (c2Input (some 10)) c2Pages).calls =
      [⟨.query, some 10, none⟩, ⟨.query, some 7, some 101⟩, ⟨.query, some 4, some 102⟩] ∧
    (queryAll (c2Input (some 10)) c2Pages).items = [1, 2, 3, 4, 5, 6, 7, 8, 9] ∧
    (queryAll (c2Input none) c2Pages).calls =
      [⟨.query, none, none⟩, ⟨.query, none, some 101⟩, ⟨.query, none, some 102⟩] ∧
    (queryAll (c2Input none) c2Pages).items = [1, 2, 3, 4, 5, 6, 7, 8, 9] := by
  refine ⟨?_, rfl, rfl, rfl, rfl, rfl, rfl, rfl, rfl⟩
  intro queryInput store hL
  unfold queryAll specQueryAll
  simp only [fetchLoop_eq_specLoop queryInput.limit hL]

/-- Witness for C2: the general part applied to the limit-6 scenario. -/
theorem claim_c2_witness :
    queryAll (c2Input (some 6)) c2Pages = specQueryAll (c2Input (some 6)) c2Pages :=
  claim_c2.1 (c2Input (some 6)) c2Pages (Or.inr (by decide))

/-- Every call issued by the aggregation loop (i.e. every call after the
first) is a `QueryCommand`. -/
lemma fetchLoop_calls_query (origLimit : Option Nat) :
    ∀ (rest : List PageResponse) (items : List Item) (lek : Option ContinuationKey)
      (c : CallRecord), c ∈ (fetchLoop origLimit items lek rest).2.2 →
      c.kind = Operation.query := by
  intro rest
  induction rest with
  | nil =>
    intro items lek c hc
    rw [fetchLoop] at hc
    split at hc
    · simp at hc
      rw [hc]
    · simp at hc
  | cons r rs ih =>
    intro items lek c hc
    rw [fetchLoop_cons] at hc
    split at hc
    · simp at hc
      rcases hc with h | h
      · rw [h]
      · exact ih _ _ c h
    · simp at hc

/-- A concrete scan scenario: three pages, tokens after the first two. -/
def c4Pages : List PageResponse :=
  [⟨[1, 2], some 201⟩, ⟨[3], some 202⟩, ⟨[4], none⟩]

/-- Claim C4: in `scanAll`, the first page is requested with a
scan-shaped call, but every later call issued by the loop is
query-shaped, for every scan input and store; concretely, a truncated
first response leads to query-shaped second and third calls. -/
theorem claim_c4 :
    (∀ (scanInput : QueryCommandInput) (store : List PageResponse),
      ((scanAll scanInput store).calls.head?.map CallRecord.kind = some Operation.scan) ∧
      (∀ c ∈ (scanAll scanInput store).calls.tail, c.kind = Operation.query)) ∧
    (scanAll { tableName := "t" } c4Pages).calls =
      [⟨.scan, none, none⟩, ⟨.query, none, some 201⟩, ⟨.query, none, some 202⟩] := by
  refine ⟨?_, rfl⟩
  intro scanInput store
  constructor
  · rfl
  · intro c hc
    exact fetchLoop_calls_query scanInput.limit _ _ _ c hc

/-- Witness for C4: applied to the concrete scan scenario and its second
call. -/
theorem claim_c4_witness :
    (scanAll { tableName := "t" } c4Pages).calls.head?.map CallRecord.kind =
      some Operation.scan ∧
    CallRecord.kind ⟨Operation.query, none, some 201⟩ = Operation.query :=
  ⟨(claim_c4.1 { tableName := "t" } c4Pages).1,
    (claim_c4.1 { tableName := "t" } c4Pages).2 ⟨Operation.query, none, some 201⟩ (by decide)⟩

/-- Claim C5: a field with one value compiles to a single equality; a
field with two or more values compiles to an `Or` of equalities on that
field; two or more fields are joined with `And`; a single field's
condition is returned unwrapped; and the example
`{ f1: [v1], f2: [v2, v3] }` compiles to
`(f1 = v1) AND ((f2 = v2) OR (f2 = v3))` with placeholders
substituted. -/
theorem claim_c5 :
    (∀ (key : String) (v : Lit),
      generateFilterExpression [(key, [v])] =
        Condition.comparison (.attr key) .eq (.lit v)) ∧
    (∀ (key : String) (v1 v2 : Lit) (vs : List Lit),
      generateFilterExpression [(key, v1 :: v2 :: vs)] =
        Condition.or ((v1 :: v2 :: vs).map
          (fun v => Condition.comparison (.attr key) .eq (.lit v)))) ∧
    (∀ (kv1 kv2 : String × List Lit) (rest : Filters),
      generateFilterExpression (kv1 :: kv2 :: rest) =
        Condition.and ((kv1 :: kv2 :: rest).map perFieldCondition)) ∧
    (generateFilterInput [("f1", [Lit.num 1]), ("f2", [Lit.num 2, Lit.num 3])] {}).map Prod.fst =
      .ok (some "(#f1 = :v_sub0) AND ((#f2 = :v_sub1) OR (#f2 = :v_sub2))") :=
  ⟨fun _ _ => rfl, fun _ _ _ _ => rfl, fun _ _ _ => rfl, rfl⟩

/-- Claim C7: compiling `And`/`Or` with fewer than 2 sub-conditions
fails with the validation error thrown at expression-build time (with
the source's message); with 2 or more sub-conditions it compiles the
sub-conditions left to right, wraps each in parentheses and joins them
with `" AND "` / `" OR "`. -/
theorem claim_c7 (cs : List Condition) (t : AttributeTracker) :
    (cs.length < 2 →
      Condition.build (.and cs) t = .error (.andTooFew cs.length) ∧
      Condition.build (.or cs) t = .error (.orTooFew cs.length)) ∧
    (2 ≤ cs.length →
      Condition.build (.and cs) t = (Condition.buildList cs t).map
        (fun p => ("(" ++ String.intercalate ") AND (" p.1 ++ ")", p.2)) ∧
      Condition.build (.or cs) t = (Condition.buildList cs t).map
        (fun p => ("(" ++ String.intercalate ") OR (" p.1 ++ ")", p.2))) ∧
    (ExpressionError.andTooFew cs.length).message =
      "And condition must have at least 2 operands but got: " ++ natStr cs.length ∧
    (ExpressionError.orTooFew cs.length).message =
      "Or condition must have at least 2 operands but got: " ++ natStr cs.length := by
  refine ⟨?_, ?_, rfl, rfl⟩
  · intro h
    constructor <;> · rw [Condition.build]; simp [h]
  · intro h
    have h' : ¬ cs.length < 2 := by omega
    constructor <;>
      · rw [Condition.build]
        simp only [h', if_false]
        cases Condition.buildList cs t <;> simp [Except.map]

/-- Witness for C7: the empty list fails, a concrete two-element list
compiles to the parenthesized join. -/
theorem claim_c7_witness :
    (Condition.build (.and ([] : List Condition)) {} = .error (.andTooFew 0)) ∧
    (Condition.build
      (.and [Eq' (.attr "a") (.lit (.num 1)), Eq' (.attr "b") (.lit (.num 2))]) {} =
      (Condition.buildList [Eq' (.attr "a") (.lit (.num 1)), Eq' (.attr "b") (.lit (.num 2))] {}).map
        (fun p => ("(" ++ String.intercalate ") AND (" p.1 ++ ")", p.2))) :=
  ⟨((claim_c7 [] {}).1 (by decide)).1,
    ((claim_c7 [Eq' (.attr "a") (.lit (.num 1)), Eq' (.attr "b") (.lit (.num 2))] {}).2.1
      (by decide)).1⟩

/-- Membership in a JS set after insertion. -/
lemma setAdd_mem (s : List String) (y x : String) :
    x ∈ setAdd s y ↔ x ∈ s ∨ x = y := by
  unfold setAdd
  by_cases h : (s.contains y : Prop) <;> simp_all


/-- Insertion into a JS set preserves the no-duplicates invariant. -/
lemma setAdd_nodup (s : List String) (y : String) (h : s.Nodup) :
    (setAdd s y).Nodup := by
  unfold setAdd
  by_cases hc : (s.contains y : Prop) <;> simp_all [List.nodup_append]

/-- The placeholder returned by `getName` with no alias is `"#" + name`,
independent of the tracker state. -/
lemma getName_fst (t : AttributeTracker) (f : String) :
    (t.getName f none).1 = "#" ++ f := rfl

/-- Membership in the projection field set accumulated over the
requested fields. -/
lemma projectionFieldsLoop_mem :
    ∀ (fields : List String) (acc : List String) (t : AttributeTracker) (x : String),
      x ∈ (projectionFieldsLoop fields acc t).1 ↔
        x ∈ acc ∨ ∃ f ∈ fields, x = "#" ++ f := by
  intro fields
  induction fields with
  | nil => intro acc t x; simp [projectionFieldsLoop]
  | cons f fs ih =>
    intro acc t x
    rw [projectionFieldsLoop]
    rw [ih, setAdd_mem]
    simp [getName_fst]
    tauto

/-- The projection field loop preserves the no-duplicates invariant. -/
lemma projectionFieldsLoop_nodup :
    ∀ (fields : List String) (acc : List String) (t : AttributeTracker),
      acc.Nodup → (projectionFieldsLoop fields acc t).1.Nodup := by
  intro fields
  induction fields with
  | nil => intro acc t h; simpa [projectionFieldsLoop] using h
  | cons f fs ih =>
    intro acc t h
    rw [projectionFieldsLoop]
    exact ih _ _ (setAdd_nodup _ _ h)

/-- Membership in the full projection placeholder set for a key
configuration with a non-empty sort key name. -/
lemma generateProjectionFields_mem (ks : KeyParams) (sk : String) (hsk : sk ≠ "")
    (hks : ks.sortKeyName = some sk) (fields : List String) (t : AttributeTracker)
    (x : String) :
    x ∈ (generateProjectionFields (some ks) fields t).1 ↔
      (∃ f ∈ fields, x = "#" ++ f) ∨ x = "#" ++ ks.partitionKeyName ∨ x = "#" ++ sk := by
  unfold generateProjectionFields
  simp only [hks, hsk, if_true, getName_fst, ne_eq, not_false_iff]
  rw [setAdd_mem, setAdd_mem, projectionFieldsLoop_mem]
  simp only [List.not_mem_nil, false_or, or_assoc]

/-- The full projection placeholder set has no duplicates. -/
lemma generateProjectionFields_nodup (keys : Option KeyParams) (fields : List String)
    (t : AttributeTracker) : (generateProjectionFields keys fields t).1.Nodup := by
  unfold generateProjectionFields
  have base := projectionFieldsLoop_nodup fields [] t List.nodup_nil
  rcases keys with _ | ks
  · simpa using base
  · rcases hks : ks.sortKeyName with _ | sk
    · simpa [hks] using setAdd_nodup _ _ base
    · by_cases hsk : sk = ""
      · simp only [hks, hsk, ne_eq, not_true_eq_false, if_false]
        exact setAdd_nodup _ _ base
      · simp only [hks, hsk, ne_eq, not_false_iff, if_true]
        exact setAdd_nodup _ _ (setAdd_nodup _ _ base)

/-- Claim C6: projection compilation always additionally includes the
partition key and (non-empty) sort key placeholders, deduplicated
against the requested fields; requesting `[a, b]` with keys `pk`, `sk`
yields exactly the placeholder set `{#a, #b, #pk, #sk}` with no
placeholder listed twice (even when a requested field equals a key
field), joined by commas. -/
theorem claim_c6 (a b pk sk : String) (pkv skv : Option String) (skc : Option Condition)
    (t : AttributeTracker) (hsk : sk ≠ "") :
    (∀ (fields : List String),
      "#" ++ pk ∈ (generateProjectionFields
        (some ⟨pk, pkv, some sk, skv, skc⟩) fields t).1 ∧
      "#" ++ sk ∈ (generateProjectionFields
        (some ⟨pk, pkv, some sk, skv, skc⟩) fields t).1) ∧
    (generateProjectionFields (some ⟨pk, pkv, some sk, skv, skc⟩) [a, b] t).1.Nodup ∧
    (∀ x, x ∈ (generateProjectionFields (some ⟨pk, pkv, some sk, skv, skc⟩) [a, b] t).1 ↔
      (x = "#" ++ a ∨ x = "#" ++ b ∨ x = "#" ++ pk ∨ x = "#" ++ sk)) ∧
    (generateProjectionExpression (some ⟨pk, pkv, some sk, skv, skc⟩) [a, b] t).1 =
      String.intercalate ","
        (generateProjectionFields (some ⟨pk, pkv, some sk, skv, skc⟩) [a, b] t).1 := by
  refine ⟨?_, generateProjectionFields_nodup _ _ _, ?_, rfl⟩
  · intro fields
    constructor
    · rw [generateProjectionFields_mem _ sk hsk rfl]
      tauto
    · rw [generateProjectionFields_mem _ sk hsk rfl]
      tauto
  · intro x
    rw [generateProjectionFields_mem _ sk hsk rfl]
    simp
    tauto

/-- Witness for C6: concrete fields and keys, including the evaluated
comma-joined projection string. -/
theorem claim_c6_witness :
    (generateProjectionFields (some ⟨"pk", some "v", some "sk", none, none⟩) ["a", "b"]
      ({} : AttributeTracker)).1.Nodup ∧
    (generateProjectionExpression (some ⟨"pk", some "v", some "sk", none, none⟩) ["a", "b"]
      ({} : AttributeTracker)).1 = "#a,#b,#pk,#sk" :=
  ⟨(claim_c6 "a" "b" "pk" "sk" (some "v") none none {} (by decide)).2.1,
    by
      rw [(claim_c6 "a" "b" "pk" "sk" (some "v") none none {} (by decide)).2.2.2]
      rfl⟩

/-- With enough fuel, `natStrCore` computes the reversed
`Nat.digits`-representation mapped through `Nat.digitChar`. -/
lemma natStrCore_eq_digits :
    ∀ (fuel n : Nat), 0 < n → n < 10 ^ fuel →
      natStrCore fuel n = ((Nat.digits 10 n).map Nat.digitChar).reverse := by
  intro fuel
  induction fuel with
  | zero =>
    intro n h0 hlt
    simp at hlt
    omega
  | succ f ih =>
    intro n h0 hlt
    rw [natStrCore]
    by_cases h10 : n < 10
    · simp only [h10, if_true]
      rw [Nat.digits_def' (by norm_num : (1 : Nat) < 10) h0, Nat.div_eq_of_lt h10]
      simp [Nat.mod_eq_of_lt h10]
    · simp only [h10, if_false]
      rw [Nat.digits_def' (by norm_num : (1 : Nat) < 10) h0]
      have hd : 0 < n / 10 := Nat.div_pos (le_of_not_lt h10) (by norm_num)
      have hlt' : n / 10 < 10 ^ f := by
        apply Nat.div_lt_of_lt_mul
        rw [pow_succ] at hlt
        omega
      rw [ih (n / 10) hd hlt']
      simp

/-- `natStr` of a positive number is its reversed digit string. -/
lemma natStr_eq_digits (n : Nat) (h : 0 < n) :
    natStr n = ⟨((Nat.digits 10 n).map Nat.digitChar).reverse⟩ := by
  unfold natStr
  rw [natStrCore_eq_digits (n + 1) n h]
  calc n < 10 ^ n := Nat.lt_pow_self (by norm_num) n
  _ ≤ 10 ^ (n + 1) := Nat.pow_le_pow_right (by norm_num) (Nat.le_succ n)

/-- `Nat.digitChar` is injective on decimal digits. -/
lemma digitChar_injOn :
    ∀ d, d < 10 → ∀ e, e < 10 → Nat.digitChar d = Nat.digitChar e → d = e := by decide

/-- Mapping `Nat.digitChar` over decimal digit lists is injective. -/
lemma map_digitChar_inj :
    ∀ (l1 l2 : List Nat), (∀ x ∈ l1, x < 10) → (∀ x ∈ l2, x < 10) →
      l1.map Nat.digitChar = l2.map Nat.digitChar → l1 = l2 := by
  intro l1
  induction l1 with
  | nil =>
    intro l2 _ _ h
    cases l2 with
    | nil => rfl
    | cons b bs => simp at h
  | cons a as ih =>
    intro l2 h1 h2 h
    cases l2 with
    | nil => simp at h
    | cons b bs =>
      simp only [List.map_cons, List.cons.injEq] at h
      have ha : a < 10 := h1 a (by simp)
      have hb : b < 10 := h2 b (by simp)
      rw [digitChar_injOn a ha b hb h.1,
        ih bs (fun x hx => h1 x (by simp [hx])) (fun x hx => h2 x (by simp [hx])) h.2]

/-- `natStr` of a positive number is never `"0"`. -/
lemma natStr_ne_natStr_zero (n : Nat) (hn : n ≠ 0) : natStr n ≠ natStr 0 := by
  intro h
  rw [natStr_eq_digits n (Nat.pos_of_ne_zero hn)] at h
  have hl : ((Nat.digits 10 n).map Nat.digitChar).reverse = ['0'] := congrArg String.data h
  have hm : (Nat.digits 10 n).map Nat.digitChar = ['0'] := by
    have := congrArg List.reverse hl
    simpa using this
  rcases hdig : Nat.digits 10 n with _ | ⟨d, ds⟩
  · rw [hdig] at hm
    simp at hm
  · rw [hdig] at hm
    simp only [List.map_cons, List.cons.injEq] at hm
    have hds : ds = [] := by
      have := hm.2
      cases ds with
      | nil => rfl
      | cons e es => simp at this
    have hd10 : d < 10 :=
      Nat.digits_lt_base (by norm_num) (by rw [hdig]; exact List.mem_cons_self d ds)
    have hd0 : d = 0 := digitChar_injOn d hd10 0 (by norm_num) hm.1
    have hzero : n = 0 := by
      have := Nat.ofDigits_digits 10 n
      rw [hdig, hds, hd0] at this
      simpa using this.symm
    exact hn hzero

/-- `natStr` is injective: distinct counters give distinct numerals. -/
lemma natStr_injective : Function.Injective natStr := by
  intro m n h
  by_cases hm : m = 0 <;> by_cases hn : n = 0
  · omega
  · subst hm
    exact (natStr_ne_natStr_zero n hn h.symm).elim
  · subst hn
    exact (natStr_ne_natStr_zero m hm h).elim
  · rw [natStr_eq_digits m (Nat.pos_of_ne_zero hm), natStr_eq_digits n (Nat.pos_of_ne_zero hn)] at h
    have hl : ((Nat.digits 10 m).map Nat.digitChar).reverse =
        ((Nat.digits 10 n).map Nat.digitChar).reverse := congrArg String.data h
    have hmap := List.reverse_injective hl
    have hdig := map_digitChar_inj _ _
      (fun x hx => Nat.digits_lt_base (by norm_num) hx)
      (fun x hx => Nat.digits_lt_base (by norm_num) hx) hmap
    calc m = Nat.ofDigits 10 (Nat.digits 10 m) := (Nat.ofDigits_digits 10 m).symm
    _ = Nat.ofDigits 10 (Nat.digits 10 n) := by rw [hdig]
    _ = n := Nat.ofDigits_digits 10 n

/-- Placeholders built from distinct counters are distinct strings. -/
lemma valuePlaceholder_ne (s : String) (c d : Nat) (hcd : c ≠ d) :
    (":" ++ s ++ natStr c) ≠ (":" ++ s ++ natStr d) := by
  intro h
  have hdata := congrArg String.data h
  simp only [String.data_append] at hdata
  have hlist := List.append_cancel_left hdata
  have : natStr c = natStr d := by
    apply String.ext
    exact hlist
  exact hcd (natStr_injective this)

/-- Claim C9: every value resolution allocates a fresh placeholder with
the current counter and increments it by one; a fresh tracker starts at
counter 0; two consecutive resolutions (any literals, even equal ones,
under the same alias) give distinct, consecutively numbered
placeholders — values are never deduplicated. -/
theorem claim_c9 (t : AttributeTracker) (v1 v2 : Lit) (a1 a2 : Option String) :
    (({} : AttributeTracker).valueCounter = 0) ∧
    (t.getValue v1 a1).1 = ":" ++ a1.getD "v_sub" ++ natStr t.valueCounter ∧
    (t.getValue v1 a1).2.valueCounter = t.valueCounter + 1 ∧
    ((t.getValue v1 a1).2.getValue v2 a2).1 =
      ":" ++ a2.getD "v_sub" ++ natStr (t.valueCounter + 1) ∧
    ((t.getValue v1 a1).2.getValue v2 a2).2.valueCounter = t.valueCounter + 2 ∧
    (a1 = a2 → (t.getValue v1 a1).1 ≠ ((t.getValue v1 a1).2.getValue v2 a2).1) := by
  refine ⟨rfl, rfl, rfl, rfl, rfl, ?_⟩
  intro ha
  subst ha
  show (":" ++ a1.getD "v_sub" ++ natStr t.valueCounter) ≠
    (":" ++ a1.getD "v_sub" ++ natStr (t.valueCounter + 1))
  exact valuePlaceholder_ne _ _ _ (by omega)

/-- Witness for C9: two resolutions of the identical literal `1` on a
fresh tracker give the distinct placeholders `:v_sub0` and `:v_sub1`. -/
theorem claim_c9_witness :
    (({} : AttributeTracker).getValue (Lit.num 1) none).1 = ":v_sub0" ∧
    ((({} : AttributeTracker).getValue (Lit.num 1) none).2.getValue (Lit.num 1) none).1 =
      ":v_sub1" ∧
    (({} : AttributeTracker).getValue (Lit.num 1) none).1 ≠
      ((({} : AttributeTracker).getValue (Lit.num 1) none).2.getValue (Lit.num 1) none).1 :=
  ⟨rfl, rfl, (claim_c9 {} (Lit.num 1) (Lit.num 1) none none).2.2.2.2.2 rfl⟩

/-- Looking up a key that is absent from the record skips to an
appended binding. -/
lemma recordGet_append_of_not_any {α : Type} (m : List (String × α)) (k : String)
    (v : α) (h : m.any (fun p => p.1 = k) = false) :
    recordGet (m ++ [(k, v)]) k = some v := by
  induction m with
  | nil => simp [recordGet]
  | cons p rest ih =>
    simp only [List.any_cons, Bool.or_eq_false_iff] at h
    rw [List.cons_append, recordGet]
    have hp : ¬ p.1 = k := by simpa using h.1
    simp only [hp, if_false]
    exact ih h.2

/-- After a JS `Record` assignment, looking up the assigned key returns
the assigned value (whether it overwrote or appended). -/
lemma recordGet_recordSet {α : Type} (m : List (String × α)) (k : String) (v : α) :
    recordGet (recordSet m k v) k = some v := by
  induction m with
  | nil => simp [recordSet, recordGet]
  | cons p rest ih =>
    by_cases hp : p.1 = k
    · have hany : ((p :: rest).any (fun q => q.1 = k)) = true := by simp [hp]
      rw [recordSet, hany]
      simp only [if_true, List.map_cons, hp, if_pos]
      rw [recordGet]
      simp
    · rw [recordSet]
      by_cases hrest : (rest.any (fun q => q.1 = k)) = true
      · have hany : ((p :: rest).any (fun q => q.1 = k)) = true := by simp [hrest]
        rw [hany]
        simp only [if_true, List.map_cons, hp, if_neg, ite_false]
        rw [recordGet]
        simp only [hp, if_false]
        have := ih
        rw [recordSet, hrest, if_pos rfl] at this
        simpa using this
      · have hrest2 : (rest.any (fun q => q.1 = k)) = false := by
          simp only [Bool.not_eq_true] at hrest
          exact hrest
        have hany : ((p :: rest).any (fun q => q.1 = k)) = false := by
          simp only [List.any_cons, Bool.or_eq_false_iff]
          exact ⟨by simpa using hp, hrest2⟩
        rw [hany]
        simp only [Bool.false_eq_true, if_false]
        rw [List.cons_append, recordGet]
        simp only [hp, if_false]
        exact recordGet_append_of_not_any rest k v hrest2

/-- Claim C10: resolving two distinct attribute names under the same
alias returns the identical placeholder `"#" + alias` both times, and
afterwards the names map binds that placeholder to the name resolved
last — the earlier binding is silently overwritten. -/
theorem claim_c10 (t : AttributeTracker) (n1 n2 a : String) (hne : n1 ≠ n2) :
    (t.getName n1 (some a)).1 = "#" ++ a ∧
    ((t.getName n1 (some a)).2.getName n2 (some a)).1 = "#" ++ a ∧
    recordGet ((t.getName n1 (some a)).2.getName n2 (some a)).2.attributeNames
      ("#" ++ a) = some n2 := by
  refine ⟨rfl, rfl, ?_⟩
  show recordGet (recordSet (recordSet t.attributeNames ("#" ++ a) n1) ("#" ++ a) n2)
    ("#" ++ a) = some n2
  exact recordGet_recordSet _ _ _

/-- Witness for C10: the fields `f1` then `f2` resolved under alias
`x` on a fresh tracker; the map ends bound to `f2`. -/
theorem claim_c10_witness :
    recordGet ((({} : AttributeTracker).getName "f1" (some "x")).2.getName "f2"
      (some "x")).2.attributeNames ("#" ++ "x") = some "f2" :=
  (claim_c10 {} "f1" "f2" "x" (by decide)).2.2

/-- Claim C8: for every builder state, `build("query")` fails with the
partition-key validation error unless a (truthy) partition key name and
a present partition key value are staged; if they are staged the
partition-key error is never raised; `build("scan")` on the identical
state never raises that error, and succeeds outright whenever no filter
mechanism is staged. -/
theorem claim_c8 (b : QueryBuilder) :
    (pkPresent b.keys = false → b.build .query = .error .pkRequired) ∧
    (pkPresent b.keys = true → b.build .query ≠ .error .pkRequired) ∧
    (∀ e, b.build .scan = .error e → e ≠ BuilderError.pkRequired) ∧
    (b.filter = none → b.filterExpression = none → ∃ r, b.build .scan = .ok r) ∧
    BuilderError.pkRequired.message =
      "A key configuration using `withKeys` containing a partition key name and value is required for a query operation" := by
  refine ⟨?_, ?_, ?_, ?_, rfl⟩
  · intro h
    simp [QueryBuilder.build, h]
  · intro h
    rw [QueryBuilder.build]
    simp only [h, Bool.not_true, Bool.and_false, Bool.false_eq_true, if_false]
    rcases hk : buildKeys (match b.rawQueryOptions with
      | some raw => assignRaw b.query raw
      | none => b.query) b.keys {} with e1 | p1
    · simp [hk, Except.mapError, Bind.bind, Except.bind]
    · simp only [hk, Except.mapError, Bind.bind, Except.bind]
      rcases hf : buildFilter (buildIndex p1.1 b.index) b.filter p1.2 with e2 | p2
      · simp [hf]
      · simp only [hf]
        rcases hfe : buildFilterExpression p2.1 b.filterExpression p2.2 with e3 | p3
        · simp [hfe]
        · simp [hfe]
  · intro e he
    rw [QueryBuilder.build] at he
    simp only [show (Operation.scan = Operation.query) = False by simp, decide_False,
      Bool.false_and, Bool.false_eq_true, if_false, Except.mapError, Bind.bind,
      Except.bind, pure, Except.pure] at he
    rcases hf : buildFilter (buildIndex (match b.rawQueryOptions with
      | some raw => assignRaw b.query raw
      | none => b.query) b.index) b.filter {} with e2 | p2
    · rw [hf] at he
      simp at he
      rw [← he]
      intro hcontra
      cases hcontra
    · rw [hf] at he
      simp only [] at he
      rcases hfe : buildFilterExpression p2.1 b.filterExpression p2.2 with e3 | p3
      · rw [hfe] at he
        simp at he
        rw [← he]
        intro hcontra
        cases hcontra
      · rw [hfe] at he
        simp at he
  · intro hfil hfe
    rw [QueryBuilder.build]
    simp [hfil, hfe, buildFilter, buildFilterExpression, Except.mapError, Bind.bind,
      Except.bind, pure, Except.pure]

/-- Witness for C8: a fresh builder with no keys fails to build a query
but builds a scan. -/
theorem claim_c8_witness :
    (QueryBuilder.new "t").build .query = .error .pkRequired ∧
    ∃ r, (QueryBuilder.new "t").build .scan = .ok r :=
  ⟨(claim_c8 (QueryBuilder.new "t")).1 rfl,
    (claim_c8 (QueryBuilder.new "t")).2.2.2.1 rfl rfl⟩

/-- A key configuration staging partition key `pk` with value `v`. -/
def c3Keys : KeyParams := ⟨"pk", some "v", none, none, none⟩

/-- A builder on table `t` with keys staged — the state produced by
`new QueryBuilder("t").withKeys(c3Keys)`. -/
def c3Builder : QueryBuilder :=
  { QueryBuilder.new "t" with keys := some c3Keys }

/-- Counterexample to C3 as stated: `build()` does not fully reset all
build-scoped state.  On `c3Builder`, a `build("query")` followed by a
`build("scan")` on the mutated builder yields a scan request that still
carries the first build's `KeyConditionExpression` — a field a scan
build never computes, as the fresh-builder scan on the identical
configuration shows (`none`). -/
theorem claim_c3_counterexample :
    (QueryBuilder.new "t").withKeys c3Keys = .ok c3Builder ∧
    ((c3Builder.build .query).bind (fun r => r.2.build .scan)).map
      (fun r => r.1.keyConditionExpression) = .ok (some "#pk = :v_sub0") ∧
    (c3Builder.build .scan).map (fun r => r.1.keyConditionExpression) = .ok none :=
  ⟨rfl, rfl, rfl⟩

/-- Claim C3 amended: only the tracker is build-scoped state that is
fully reset at the top of `build()` — the produced request never depends
on the tracker left by an earlier build — but the request object
persists across builds and is mutated in place, so a second `build()`
can retain fields computed by the first build that the current
configuration does not imply: after `build("query")` then
`build("scan")` on the same builder, the scan request still carries the
first build's key-condition attribute name and value maps. -/
theorem claim_c3 :
    (∀ (b : QueryBuilder) (t : AttributeTracker) (op : Operation),
      QueryBuilder.build { b with tracker := t } op = QueryBuilder.build b op) ∧
    ((c3Builder.build .query).bind (fun r => r.2.build .scan)).map
      (fun r => (r.1.expressionAttributeNames, r.1.expressionAttributeValues)) =
      .ok (some [("#pk", "pk")], some [(":v_sub0", Lit.str "v")]) := by
  constructor
  · intro b t op
    rfl
  · rfl
